import Mathlib

/-!
Verification of the backend service contract described in the repository's
documentation: a minimal auth service (register / authenticate / verify)
and a todo resource service (list / create) over a relational store.

The repository ships the backend only as documentation and style-guide
snippets; no implementation file exists under the backend tree.  The
definitions below therefore embed the documented contract directly.
-/

namespace FastApiTodo

/-- Modelled from the spec: the process-wide configuration surface —
signing secret, token lifetime, pagination max — loaded once at startup
and immutable during the process lifetime.  (The backend implementation
is missing from the repository; only its documented contract exists.) -/
structure Config where
  signingSecret : Nat
  tokenLifetime : Nat
  paginationMax : Nat
deriving Repr, DecidableEq

/-- Modelled from the spec: the User identity record — unique email
(case-insensitive comparison), hashed password (never the plaintext),
display name, active flag, creation timestamp. -/
structure User where
  id : Nat
  email : String
  hashedPassword : Nat
  fullName : String
  isActive : Bool
  createdAt : Nat
deriving Repr, DecidableEq

/-- Modelled from the spec: the Todo task record — identifier, owning
user reference, title (non-empty), completion flag, creation timestamp. -/
structure Todo where
  id : Nat
  userId : Nat
  title : String
  completed : Bool
  createdAt : Nat
deriving Repr, DecidableEq

/-- Modelled from the spec: the persistence layer's durable state — the
relational tables `users` and `todos`, plus the store's id generators. -/
structure Store where
  users : List User
  todos : List Todo
  nextUserId : Nat
  nextTodoId : Nat
deriving Repr, DecidableEq

/-- Modelled from the spec: the typed failure taxonomy of §7. -/
inductive ApiError where
  | DuplicateEmail
  | InvalidCredentials
  | InvalidToken
  | ValidationError
  | NotFound
  | Forbidden
deriving Repr, DecidableEq

/-- Modelled from the spec: the API layer's single mapping from every
typed failure to a transport status code (§6). -/
def errorStatus : ApiError → Nat
  | .DuplicateEmail => 409
  | .InvalidCredentials => 401
  | .InvalidToken => 401
  | .ValidationError => 400
  | .NotFound => 404
  | .Forbidden => 403

/-- Modelled from the spec: the salted password hash (bcrypt in the
documented stack); abstracted as a computable digest of the plaintext,
so that only the digest — never the plaintext string — is stored. -/
def hashString (s : String) : Nat :=
  s.data.foldl (fun h c => h * 131 + c.toNat + 1) 7

/-- ASCII lowercase fold of one character's code point. -/
def lowerCode (c : Char) : Nat :=
  if 65 ≤ c.toNat ∧ c.toNat ≤ 90 then c.toNat + 32 else c.toNat

/-- The case-folded key of an email: its characters' lowercased codes. -/
def emailKey (s : String) : List Nat :=
  s.data.map lowerCode

/-- Modelled from the spec: case-insensitive email comparison. -/
def emailMatches (e1 e2 : String) : Bool :=
  emailKey e1 == emailKey e2

/-- Modelled from the spec: the persistence-boundary lookup of a user by
email, under case-insensitive comparison. -/
def findUserByEmail (st : Store) (email : String) : Option User :=
  st.users.find? (fun u => emailMatches u.email email)

/-- Modelled from the spec: `register(email, password, full_name) → User`
fails with `DuplicateEmail` if the email is already present
(case-insensitive) and stores only a salted hash of the password.  The
returned store is the post-call store: unchanged on failure. -/
def register (st : Store) (email password fullName : String) (now : Nat) :
    Except ApiError User × Store :=
  match findUserByEmail st email with
  | some _ => (.error .DuplicateEmail, st)
  | none =>
      let u : User :=
        { id := st.nextUserId, email := email,
          hashedPassword := hashString password, fullName := fullName,
          isActive := true, createdAt := now }
      (.ok u, { st with users := st.users ++ [u], nextUserId := st.nextUserId + 1 })

/-- Modelled from the spec: the Credential — a signed, time-bounded
assertion of a user's identity (subject = user id, expiry = issue time
plus the fixed lifetime, signature over both with the secret). -/
structure Token where
  sub : Nat
  exp : Nat
  sig : Nat
deriving Repr, DecidableEq

/-- Modelled from the spec: the token signature over subject and expiry
with the server's signing secret (HMAC in the documented stack). -/
def sign (secret sub exp : Nat) : Nat :=
  (secret + 1) * 1000003 + sub * 1009 + exp

/-- Modelled from the spec: minting a signed token with subject = user id
and expiry = issue time + the configured fixed lifetime. -/
def mkToken (cfg : Config) (sub now : Nat) : Token :=
  { sub := sub, exp := now + cfg.tokenLifetime,
    sig := sign cfg.signingSecret sub (now + cfg.tokenLifetime) }

/-- Modelled from the spec: `authenticate(email, password) → Credential`
fails with `InvalidCredentials` if the email is unknown or the hash
mismatches; on success mints a signed token for the user. -/
def authenticate (cfg : Config) (st : Store) (email password : String)
    (now : Nat) : Except ApiError Token :=
  match findUserByEmail st email with
  | none => .error .InvalidCredentials
  | some u =>
      if hashString password == u.hashedPassword then
        .ok (mkToken cfg u.id now)
      else
        .error .InvalidCredentials

/-- Modelled from the spec: `verify(token) → UserId` fails with
`InvalidToken` if the signature does not verify or the expiry has
passed; a pure function of the token and the signing secret. -/
def verify (cfg : Config) (tok : Token) (now : Nat) : Except ApiError Nat :=
  if tok.sig = sign cfg.signingSecret tok.sub tok.exp ∧ now < tok.exp then
    .ok tok.sub
  else
    .error .InvalidToken

/-- Modelled from the spec: `verify` as an API-layer operation against a
store state — per the spec it performs no storage access, so it consults
only the token and configuration and hands the store back untouched. -/
def verifyOp (cfg : Config) (st : Store) (tok : Token) (now : Nat) :
    Except ApiError Nat × Store :=
  (verify cfg tok now, st)

/-- Insert a todo into a list sorted by creation time ascending. -/
def insertByCreated (t : Todo) : List Todo → List Todo
  | [] => [t]
  | x :: xs =>
      if t.createdAt ≤ x.createdAt then t :: x :: xs
      else x :: insertByCreated t xs

/-- Sort todos by creation time ascending (insertion sort, modelling the
store's `ORDER BY created_at ASC`). -/
def sortByCreated : List Todo → List Todo
  | [] => []
  | x :: xs => insertByCreated x (sortByCreated xs)

/-- Modelled from the spec: `list(user_id, offset, limit)` returns only
Todos owned by `user_id`, ordered by creation time ascending, paginated,
with `limit` capped at the configured maximum. -/
def list (cfg : Config) (st : Store) (userId offset limit : Nat) : List Todo :=
  let capped := min limit cfg.paginationMax
  ((sortByCreated (st.todos.filter (fun t => t.userId == userId))).drop offset).take capped

/-- Modelled from the spec: `create(user_id, title)` fails with
`ValidationError` if the title is empty, and otherwise persists a new
Todo owned by `user_id`.  The returned store is the post-call store:
unchanged on failure. -/
def create (st : Store) (userId : Nat) (title : String) (now : Nat) :
    Except ApiError Todo × Store :=
  if title = "" then (.error .ValidationError, st)
  else
    let t : Todo :=
      { id := st.nextTodoId, userId := userId, title := title,
        completed := false, createdAt := now }
    (.ok t, { st with todos := st.todos ++ [t], nextTodoId := st.nextTodoId + 1 })

/-- Modelled from the spec: the serialized User representation returned
by the API layer — id, email, display name, active flag, creation
timestamp; no hash field. -/
def userResponse (u : User) : List (String × String) :=
  [("id", toString u.id), ("email", u.email), ("full_name", u.fullName),
   ("is_active", toString u.isActive), ("created_at", toString u.createdAt)]

/-- Modelled from the spec: the Register route — 201 plus the User
representation on success, the mapped failure status with a structured
detail body otherwise. -/
def registerRoute (st : Store) (email password fullName : String) (now : Nat) :
    (Nat × List (String × String)) × Store :=
  match register st email password fullName now with
  | (.ok u, st2) => ((201, userResponse u), st2)
  | (.error e, st2) => ((errorStatus e, [("detail", "duplicate email")]), st2)

/-! ## Helper lemmas about the creation-time sort -/

theorem mem_insertByCreated (t x : Todo) (l : List Todo) :
    x ∈ insertByCreated t l ↔ x = t ∨ x ∈ l := by
  induction l with
  | nil => simp [insertByCreated]
  | cons y ys ih =>
      by_cases h : t.createdAt ≤ y.createdAt
      · simp [insertByCreated, h]
      · simp [insertByCreated, h, ih]
        tauto

theorem mem_sortByCreated (x : Todo) (l : List Todo) :
    x ∈ sortByCreated l ↔ x ∈ l := by
  induction l with
  | nil => simp [sortByCreated]
  | cons y ys ih =>
      simp [sortByCreated, mem_insertByCreated, ih]

theorem pairwise_insertByCreated (t : Todo) (l : List Todo)
    (h : l.Pairwise (fun a b => a.createdAt ≤ b.createdAt)) :
    (insertByCreated t l).Pairwise (fun a b => a.createdAt ≤ b.createdAt) := by
  induction l with
  | nil => simp [insertByCreated]
  | cons y ys ih =>
      rcases List.pairwise_cons.mp h with ⟨hy, hys⟩
      by_cases hle : t.createdAt ≤ y.createdAt
      · rw [insertByCreated, if_pos hle]
        refine List.pairwise_cons.mpr ⟨?_, h⟩
        intro z hz
        rcases List.mem_cons.mp hz with hzz | hzz
        · subst hzz
          exact hle
        · exact hle.trans (hy z hzz)
      · rw [insertByCreated, if_neg hle]
        refine List.pairwise_cons.mpr ⟨?_, ih hys⟩
        intro z hz
        rcases (mem_insertByCreated t z ys).mp hz with hz | hz
        · subst hz
          exact Nat.le_of_not_le hle
        · exact hy z hz

theorem pairwise_sortByCreated (l : List Todo) :
    (sortByCreated l).Pairwise (fun a b => a.createdAt ≤ b.createdAt) := by
  induction l with
  | nil => simp [sortByCreated]
  | cons y ys ih => exact pairwise_insertByCreated y (sortByCreated ys) ih

theorem mem_list_userId (cfg : Config) (st : Store) (u off lim : Nat)
    (t : Todo) (ht : t ∈ list cfg st u off lim) : t.userId = u := by
  have h1 : t ∈ sortByCreated (st.todos.filter (fun x => x.userId == u)) := by
    have := List.mem_of_mem_drop (List.mem_of_mem_take ht)
    exact this
  have h2 : t ∈ st.todos.filter (fun x => x.userId == u) :=
    (mem_sortByCreated t _).mp h1
  have h3 := (List.mem_filter.mp h2).2
  simpa using h3

/-! ## Concrete fixtures used by the witnesses -/

/-- A concrete configuration: 15-minute token lifetime, pagination max 100. -/
def cfg0 : Config :=
  { signingSecret := 7, tokenLifetime := 900, paginationMax := 100 }

/-- The empty store. -/
def st0 : Store :=
  { users := [], todos := [], nextUserId := 1, nextTodoId := 1 }

/-- A todo of user 5 created at time 10. -/
def todoA : Todo :=
  { id := 1, userId := 5, title := "first", completed := false, createdAt := 10 }

/-- A todo of user 5 created at time 20. -/
def todoB : Todo :=
  { id := 2, userId := 5, title := "second", completed := false, createdAt := 20 }

/-- A store holding exactly the two todos of user 5. -/
def stT : Store :=
  { users := [], todos := [todoA, todoB], nextUserId := 1, nextTodoId := 3 }

/-- A store holding user 5's two todos physically stored in reversed
creation order: the later-created `todoB` sits first. -/
def stTrev : Store :=
  { users := [], todos := [todoB, todoA], nextUserId := 1, nextTodoId := 3 }

/-- The user produced by registering `a@x.com` on the empty store. -/
def u1 : User :=
  { id := 1, email := "a@x.com", hashedPassword := hashString "password123",
    fullName := "Alice", isActive := true, createdAt := 0 }

/-- The store after registering `u1` on the empty store. -/
def st1 : Store :=
  { users := [u1], todos := [], nextUserId := 2, nextTodoId := 1 }

/-! ## Claim theorems -/

/-- C1: every Todo returned by `list cfg st u off lim` is owned by `u`,
and a Todo created by any user `v ≠ u` never appears in any `list` call
for `u`: the result of `list` draws exactly from the Todos owned by `u`. -/
theorem list_returns_only_owned (cfg : Config) (st : Store) (u off lim : Nat) :
    (∀ t ∈ list cfg st u off lim, t.userId = u) ∧
    (∀ st2 st3 v title now t0, create st2 v title now = (.ok t0, st3) →
      v ≠ u → t0 ∉ list cfg st u off lim) := by
  constructor
  · intro t ht
    exact mem_list_userId cfg st u off lim t ht
  · intro st2 st3 v title now t0 hc hv ht
    have huid : t0.userId = v := by
      by_cases hT : title = ""
      · simp [create, hT] at hc
      · simp [create, hT] at hc
        rw [← hc.1]
    have hu : t0.userId = u := mem_list_userId cfg st u off lim t0 ht
    exact hv (huid.symm.trans hu)

/-- C1 witness: on the concrete store `stT`, `todoA` is returned by
`list` for user 5 and is indeed owned by user 5. -/
theorem list_returns_only_owned_witness : todoA.userId = 5 :=
  (list_returns_only_owned cfg0 stT 5 0 10).1 todoA (by decide)

/-- C2: the sequence returned by `list` is sorted by creation time
ascending; and on a store whose Todos of user `u` are exactly `[a, b]`
— in either physical storage order — `list u 0 1` (with a pagination
max of at least 1) returns exactly one Todo, the earliest-created of
the two. -/
theorem list_sorted_by_creation (cfg : Config) (st : Store) (u off lim : Nat) :
    (list cfg st u off lim).Pairwise (fun a b => a.createdAt ≤ b.createdAt) ∧
    (∀ a b, st.todos.filter (fun t => t.userId == u) = [a, b] →
      1 ≤ cfg.paginationMax →
      list cfg st u 0 1 = [if a.createdAt ≤ b.createdAt then a else b]) := by
  constructor
  · have hsorted := pairwise_sortByCreated (st.todos.filter (fun t => t.userId == u))
    have hsub : List.Sublist (list cfg st u off lim)
        (sortByCreated (st.todos.filter (fun t => t.userId == u))) :=
      List.Sublist.trans (List.take_sublist _ _) (List.drop_sublist _ _)
    exact hsorted.sublist hsub
  · intro a b hfil hmax
    have hmin : min 1 cfg.paginationMax = 1 := Nat.min_eq_left hmax
    by_cases hab : a.createdAt ≤ b.createdAt
    · simp [list, hfil, sortByCreated, insertByCreated, hab, hmin]
    · simp [list, hfil, sortByCreated, insertByCreated, hab, hmin]

/-- C2 witness: on the concrete store `stTrev`, which stores the
later-created `todoB` (time 20) before `todoA` (time 10) for user 5,
`list 5 0 1` still returns the earliest-created `todoA`. -/
theorem list_sorted_by_creation_witness : list cfg0 stTrev 5 0 1 = [todoA] :=
  ((list_sorted_by_creation cfg0 stTrev 5 0 1).2 todoB todoA (by decide)
    (by decide)).trans (by decide)

/-- C3: the number of Todos returned by `list` never exceeds the
configured pagination maximum, whatever `limit` the caller passes. -/
theorem list_length_le_max (cfg : Config) (st : Store) (u off lim : Nat) :
    (list cfg st u off lim).length ≤ cfg.paginationMax := by
  have h1 : (list cfg st u off lim).length ≤ min lim cfg.paginationMax := by
    simp [list]
  exact h1.trans (Nat.min_le_right _ _)

/-- C4: `verify`, viewed as an API operation against a store state, is a
pure function of the token and the signing secret: it leaves the store
unchanged, its result does not depend on the store state, and it agrees
with the storage-free function `verify`. -/
theorem verify_pure_frame (cfg : Config) (st st2 : Store) (tok : Token)
    (now : Nat) :
    (verifyOp cfg st tok now).2 = st ∧
    (verifyOp cfg st tok now).1 = (verifyOp cfg st2 tok now).1 ∧
    (verifyOp cfg st tok now).1 = verify cfg tok now :=
  ⟨rfl, rfl, rfl⟩

/-- C5: after a successful registration with email `e`, a second
registration with any email equal to `e` under case-insensitive
comparison fails with `DuplicateEmail` (mapped to HTTP 409), and the
store — in particular its set of users — is unchanged by the failed
call. -/
theorem register_duplicate_email (st stR : Store) (e p fn : String)
    (now : Nat) (u : User) (h : register st e p fn now = (.ok u, stR))
    (e2 p2 fn2 : String) (now2 : Nat) (he : emailMatches e2 e = true) :
    register stR e2 p2 fn2 now2 = (.error .DuplicateEmail, stR) ∧
    errorStatus ApiError.DuplicateEmail = 409 := by
  refine ⟨?_, rfl⟩
  cases hfind : findUserByEmail st e with
  | some w => simp [register, hfind] at h
  | none =>
      simp [register, hfind] at h
      obtain ⟨hu, hstR⟩ := h
      have hmem : u ∈ stR.users := by
        rw [← hstR]
        simp [← hu]
      have hpu : emailMatches u.email e2 = true := by
        rw [← hu]
        simp only [emailMatches] at he ⊢
        simp only [beq_iff_eq] at he ⊢
        exact he.symm
      have hsome : (findUserByEmail stR e2).isSome := by
        rw [findUserByEmail, List.find?_isSome]
        exact ⟨u, hmem, hpu⟩
      cases hfind2 : findUserByEmail stR e2 with
      | none => rw [hfind2] at hsome; simp at hsome
      | some w2 => simp [register, hfind2]

/-- C5 witness: registering `a@x.com` on the empty store succeeds, and a
second registration with `A@X.com` then fails with `DuplicateEmail`
(HTTP 409), leaving the store unchanged. -/
theorem register_duplicate_email_witness :
    register st1 "A@X.com" "other" "Bob" 3 = (.error .DuplicateEmail, st1) ∧
    errorStatus ApiError.DuplicateEmail = 409 :=
  register_duplicate_email st0 st1 "a@x.com" "password123" "Alice" 0 u1
    rfl "A@X.com" "other" "Bob" 3 (by decide)

/-- C6: for a registered user, a token minted by `authenticate` has
subject equal to that user's id and expiry equal to issue time plus the
configured lifetime; `verify` accepts it, returning that user id, at
every time before the expiry, and rejects it with `InvalidToken` at
every time after the expiry. -/
theorem authenticate_token_roundtrip (cfg : Config) (st stR : Store)
    (e p fn : String) (now0 now : Nat) (u : User) (tok : Token)
    (hreg : register st e p fn now0 = (.ok u, stR))
    (hauth : authenticate cfg stR e p now = .ok tok) :
    tok.sub = u.id ∧ tok.exp = now + cfg.tokenLifetime ∧
    (∀ t, t < tok.exp → verify cfg tok t = .ok u.id) ∧
    (∀ t, tok.exp < t → verify cfg tok t = .error .InvalidToken) := by
  cases hfind : findUserByEmail st e with
  | some w => simp [register, hfind] at hreg
  | none =>
      simp [register, hfind] at hreg
      obtain ⟨hu, hstR⟩ := hreg
      have hnone : st.users.find? (fun w => emailMatches w.email e) = none := by
        simpa [findUserByEmail] using hfind
      have hpu : emailMatches u.email e = true := by
        rw [← hu]
        simp [emailMatches]
      have hee : emailMatches e e = true := by
        simp [emailMatches]
      have hfound : findUserByEmail stR e = some u := by
        rw [findUserByEmail, ← hstR]
        simp only [List.find?_append, hnone, Option.none_or]
        simp [List.find?, hee, hu]
      have hhash : (hashString p == u.hashedPassword) = true := by
        rw [← hu]
        simp
      rw [authenticate, hfound] at hauth
      have hauth2 : (if (hashString p == u.hashedPassword) = true then
          Except.ok (mkToken cfg u.id now)
        else
          Except.error ApiError.InvalidCredentials) = Except.ok tok := hauth
      rw [if_pos hhash] at hauth2
      have htok : tok = mkToken cfg u.id now := (Except.ok.inj hauth2).symm
      subst htok
      refine ⟨rfl, rfl, ?_, ?_⟩
      · intro t ht
        have hexp : t < (mkToken cfg u.id now).exp := ht
        rw [verify, if_pos ⟨rfl, hexp⟩]
        rfl
      · intro t ht
        have hexp : ¬ (t < (mkToken cfg u.id now).exp) := Nat.not_lt.mpr ht.le
        rw [verify, if_neg (fun hc => hexp hc.2)]

/-- C6 witness: on the concrete registration of `a@x.com`, the token
minted at time 1 verifies at time 5 (before its expiry 901) and fails
at time 2000 (after it). -/
theorem authenticate_token_roundtrip_witness :
    verify cfg0 (mkToken cfg0 1 1) 5 = .ok 1 ∧
    verify cfg0 (mkToken cfg0 1 1) 2000 = .error .InvalidToken := by
  have h := authenticate_token_roundtrip cfg0 st0 st1 "a@x.com" "password123"
    "Alice" 0 1 u1 (mkToken cfg0 1 1) rfl (by rfl)
  exact ⟨h.2.2.1 5 (by decide), h.2.2.2 2000 (by decide)⟩

/-- C7: on a successful registration the HTTP response is 201 and the
body is the User representation, whose fields are exactly id, email,
full name, active flag and creation timestamp — no password-hash field
appears in the response body. -/
theorem register_response_has_no_hash_field (st stR : Store)
    (e p fn : String) (now : Nat) (u : User)
    (h : register st e p fn now = (.ok u, stR)) :
    (registerRoute st e p fn now).1.1 = 201 ∧
    (registerRoute st e p fn now).1.2 = userResponse u ∧
    (userResponse u).map Prod.fst =
      ["id", "email", "full_name", "is_active", "created_at"] ∧
    "hashed_password" ∉ (userResponse u).map Prod.fst := by
  refine ⟨?_, ?_, by simp [userResponse], by simp [userResponse]⟩
  · rw [registerRoute, h]
  · rw [registerRoute, h]

/-- C7 witness: the concrete registration of `a@x.com` returns 201 with
a body that has no `hashed_password` field. -/
theorem register_response_has_no_hash_field_witness :
    (registerRoute st0 "a@x.com" "password123" "Alice" 0).1.1 = 201 ∧
    "hashed_password" ∉ (userResponse u1).map Prod.fst :=
  have h := register_response_has_no_hash_field st0 st1
    "a@x.com" "password123" "Alice" 0 u1 rfl
  ⟨h.1, h.2.2.2⟩

/-- C8: `create` with an empty title fails with `ValidationError` and
leaves the store unchanged; with a non-empty title it succeeds and the
new store holds exactly one additional Todo, owned by the caller and
carrying the given title. -/
theorem create_empty_title_rejected (st : Store) (u : Nat) (title : String)
    (now : Nat) :
    (title = "" → create st u title now = (.error .ValidationError, st)) ∧
    (title ≠ "" → ∃ t : Todo, t.userId = u ∧ t.title = title ∧
      create st u title now =
        (.ok t, { st with todos := st.todos ++ [t],
                          nextTodoId := st.nextTodoId + 1 })) := by
  constructor
  · intro hT
    rw [create, if_pos hT]
  · intro hT
    refine ⟨{ id := st.nextTodoId, userId := u, title := title,
              completed := false, createdAt := now }, rfl, rfl, ?_⟩
    rw [create, if_neg hT]

/-- C8 witness: on the empty store, `create` with title `""` fails with
`ValidationError` and changes nothing, while title `Buy milk` succeeds
and appends one Todo owned by user 3. -/
theorem create_empty_title_rejected_witness :
    create st0 3 "" 0 = (.error .ValidationError, st0) ∧
    ∃ t : Todo, t.userId = 3 ∧ t.title = "Buy milk" ∧
      create st0 3 "Buy milk" 0 =
        (.ok t, { st0 with todos := st0.todos ++ [t],
                           nextTodoId := st0.nextTodoId + 1 }) :=
  ⟨(create_empty_title_rejected st0 3 "" 0).1 rfl,
   (create_empty_title_rejected st0 3 "Buy milk" 0).2 (by decide)⟩

end FastApiTodo
